import Mathlib

/-!
Verification of the resource-resolution and assembly protocol of
`lindera-ipadic/src/embedded.rs` (the `compress` + `embed-ipadic` configuration,
which is the configuration the specification describes).

Bytes are modelled as `List Nat`.  The compression container format, its
(de)serialization and the component parsers live in the external
`lindera_dictionary` crate, which is not part of the given sources; those are
modelled from the specification and marked `Modelled from the spec:`.
-/

namespace Lindera

/-- Modelled from the spec: `CompressedData` (defined in
`lindera_dictionary::decompress`, not under the given sources) is the
self-describing container record: a format tag (`algorithm`) plus a
compressed payload (`data`). -/
structure CompressedData where
  algorithm : Nat
  data : List Nat
deriving DecidableEq

/-- Modelled from the spec: run-length decoding stands in for the external
decompression algorithm's decode step; it is fallible (a corrupt or
truncated stream is rejected). The stream is a list of (run-length, byte)
pairs; a dangling half pair or a zero run-length is invalid. -/
def rleDecode : List Nat → Option (List Nat)
  | [] => some []
  | [_] => none
  | count :: b :: rest =>
    if count = 0 then none
    else (rleDecode rest).map (fun tail => List.replicate count b ++ tail)

/-- Modelled from the spec: run-length encoding, the inverse compression
step used when a payload is wrapped into a container. -/
def rleEncodeAux : Nat → Nat → List Nat → List Nat
  | count, cur, [] => [count, cur]
  | count, cur, b :: rest =>
    if b = cur then rleEncodeAux (count + 1) cur rest
    else count :: cur :: rleEncodeAux 1 b rest

/-- Modelled from the spec: run-length encoding of a payload. -/
def rleEncode : List Nat → List Nat
  | [] => []
  | b :: rest => rleEncodeAux 1 b rest

/-- Modelled from the spec: `decompress` (in `lindera_dictionary::decompress`,
not under the given sources) decodes a container's payload according to its
format tag and fails on a corrupt stream or an unrecognized tag.
Tag 0 stores the payload raw; tag 1 is the run-length stand-in for the
compression algorithm; any other tag is unrecognized. -/
def decompress (cd : CompressedData) : Option (List Nat) :=
  if cd.algorithm = 0 then some cd.data
  else if cd.algorithm = 1 then rleDecode cd.data
  else none

/-- Modelled from the spec: serialization of the self-describing container
record into bytes (performed by the external archive library).  The layout is
a recognition magic, the format tag, the payload length, then the payload. -/
def serializeCompressed (cd : CompressedData) : List Nat :=
  77 :: cd.algorithm :: cd.data.length :: cd.data

/-- Modelled from the spec: deserialization of bytes as a container record
(`rkyv::from_bytes::<CompressedData, _>`, external to the given sources);
fails when the bytes are not a recognized compressed record. -/
def deserializeCompressed : List Nat → Option CompressedData
  | magic :: algo :: len :: rest =>
    if magic = 77 ∧ rest.length = len then some ⟨algo, rest⟩ else none
  | _ => none

/-- The 16-byte-aligned scratch copy (`rkyv::util::AlignedVec::<16>` filled
with `extend_from_slice`): alignment is not observable at this level, the
copy is content-identical. -/
def alignedCopy (bytes : List Nat) : List Nat := bytes

/-- Translation of `decompress_embedded_data` (embedded.rs lines 155-175):
try to deserialize the bytes as a `CompressedData` container; on success try
to decompress the payload, falling back to the raw bytes when decompression
fails; when deserialization fails, return the bytes unchanged. -/
def decompress_embedded_data (bytes : List Nat) : List Nat :=
  let aligned := alignedCopy bytes
  match deserializeCompressed aligned with
  | some compressed_data =>
    match decompress compressed_data with
    | some decompressed => decompressed
    | none => bytes
  | none => bytes

/-- Modelled from the spec: wrapping a payload `P` in a compressed container
(the production step inverse to resolution): compress the payload and tag it. -/
def compressPayload (p : List Nat) : CompressedData :=
  ⟨1, rleEncode p⟩

/-- The load-error taxonomy of the specification: each fallible structural
parser names its own failure kind.  Decompression failure is by design not a
member. -/
inductive LoadError where
  | MetadataParseError
  | CharacterDefinitionParseError
  | UnknownDictionaryParseError
deriving DecidableEq

/-- Modelled from the spec: the metadata record (external
`lindera_dictionary::dictionary::metadata`), an opaque parsed component
carrying the bytes it was parsed from. -/
structure Metadata where
  bytes : List Nat
deriving DecidableEq

/-- Modelled from the spec: `Metadata::load` (external to the given sources),
a structural parser of the always-uncompressed metadata record; input that is
not a well-formed record is rejected with the metadata failure kind.  The
empty byte sequence is not a well-formed structured record. -/
def Metadata.load (bytes : List Nat) : Except LoadError Metadata :=
  if bytes.isEmpty then .error .MetadataParseError else .ok ⟨bytes⟩

/-- Modelled from the spec: the prefix dictionary component, composed
non-fallibly from four resolved artifacts plus a system flag. -/
structure PrefixDictionary where
  da : List Nat
  vals : List Nat
  wordsIdx : List Nat
  words : List Nat
  isSystem : Bool
deriving DecidableEq

/-- Modelled from the spec: `PrefixDictionary::load` (external), a
non-fallible composition of the four trie/value/index artifacts. -/
def PrefixDictionary.load (da vals wordsIdx words : List Nat)
    (isSystem : Bool) : PrefixDictionary :=
  ⟨da, vals, wordsIdx, words, isSystem⟩

/-- Modelled from the spec: the connection-cost matrix component. -/
structure ConnectionCostMatrix where
  bytes : List Nat
deriving DecidableEq

/-- Modelled from the spec: `ConnectionCostMatrix::load` (external), a
non-fallible direct reinterpretation of the resolved bytes. -/
def ConnectionCostMatrix.load (bytes : List Nat) : ConnectionCostMatrix :=
  ⟨bytes⟩

/-- Modelled from the spec: the character-definition component. -/
structure CharacterDefinition where
  bytes : List Nat
deriving DecidableEq

/-- Modelled from the spec: `CharacterDefinition::load` (external), a
fallible structural parse; ill-formed input (such as the empty byte
sequence) is rejected with its own failure kind. -/
def CharacterDefinition.load (bytes : List Nat) :
    Except LoadError CharacterDefinition :=
  if bytes.isEmpty then .error .CharacterDefinitionParseError else .ok ⟨bytes⟩

/-- Modelled from the spec: the unknown-word-table component. -/
structure UnknownDictionary where
  bytes : List Nat
deriving DecidableEq

/-- Modelled from the spec: `UnknownDictionary::load` (external), a fallible
structural parse; ill-formed input (such as the empty byte sequence) is
rejected with its own failure kind. -/
def UnknownDictionary.load (bytes : List Nat) :
    Except LoadError UnknownDictionary :=
  if bytes.isEmpty then .error .UnknownDictionaryParseError else .ok ⟨bytes⟩

/-- The `Dictionary` aggregate (field order as in the source struct). -/
structure Dictionary where
  prefix_dictionary : PrefixDictionary
  connection_cost_matrix : ConnectionCostMatrix
  character_definition : CharacterDefinition
  unknown_dictionary : UnknownDictionary
  metadata : Metadata
deriving DecidableEq

/-- The embedded resource bytes: the seven artifacts named by the
`ipadic_data!` invocations plus the metadata bytes (`ipadic_metadata!`).
Their contents come from `include_bytes!` and are treated as an arbitrary
fixed input. -/
structure EmbeddedData where
  charDef : List Nat
  matrix : List Nat
  da : List Nat
  vals : List Nat
  wordsIdx : List Nat
  words : List Nat
  unk : List Nat
  metadata : List Nat
deriving DecidableEq

/-- Embedding disabled (`not(feature = "embed-ipadic")`): every artifact,
metadata included, is the zero-length placeholder. -/
def emptyEmbedded : EmbeddedData :=
  ⟨[], [], [], [], [], [], [], []⟩

/-- The process-wide memoized state: one `once_cell::sync::Lazy` cell per
artifact declared by `decompress_data!` (seven cells; the metadata constant
is not cached).  `none` is an uninitialized cell. -/
structure CacheState where
  charDef : Option (List Nat)
  matrix : Option (List Nat)
  da : Option (List Nat)
  vals : Option (List Nat)
  wordsIdx : Option (List Nat)
  words : Option (List Nat)
  unk : Option (List Nat)
deriving DecidableEq

/-- The initial cache state: no cell has been forced yet. -/
def CacheState.initial : CacheState :=
  ⟨none, none, none, none, none, none, none⟩

/-- Forcing a `Lazy` cell: an initialized cell yields its stored value; an
uninitialized cell runs the `decompress_data!` initializer (whose body is
the resolution logic of `decompress_embedded_data`) exactly once and stores
the result. -/
def lazyGet (cell : Option (List Nat)) (bytes : List Nat) :
    List Nat × Option (List Nat) :=
  match cell with
  | some v => (v, some v)
  | none =>
    let v := decompress_embedded_data bytes
    (v, some v)

/-- Translation of `load` (embedded.rs lines 90-126, `compress` feature):
parse metadata first, then assemble the aggregate from the lazily resolved
cells, in the evaluation order of the source struct literal.  The memoized
state is threaded explicitly; a `?` failure returns the error with the cells
forced so far. -/
def load (e : EmbeddedData) (s0 : CacheState) :
    Except LoadError Dictionary × CacheState :=
  match Metadata.load e.metadata with
  | .error err => (.error err, s0)
  | .ok metadata =>
    let (daB, daCell) := lazyGet s0.da e.da
    let s1 := { s0 with da := daCell }
    let (valsB, valsCell) := lazyGet s1.vals e.vals
    let s2 := { s1 with vals := valsCell }
    let (idxB, idxCell) := lazyGet s2.wordsIdx e.wordsIdx
    let s3 := { s2 with wordsIdx := idxCell }
    let (wordsB, wordsCell) := lazyGet s3.words e.words
    let s4 := { s3 with words := wordsCell }
    let pd := PrefixDictionary.load daB valsB idxB wordsB true
    let (connB, connCell) := lazyGet s4.matrix e.matrix
    let s5 := { s4 with matrix := connCell }
    let ccm := ConnectionCostMatrix.load connB
    let (charB, charCell) := lazyGet s5.charDef e.charDef
    let s6 := { s5 with charDef := charCell }
    match CharacterDefinition.load charB with
    | .error err => (.error err, s6)
    | .ok cd =>
      let (unkB, unkCell) := lazyGet s6.unk e.unk
      let s7 := { s6 with unk := unkCell }
      match UnknownDictionary.load unkB with
      | .error err => (.error err, s7)
      | .ok ud => (.ok ⟨pd, ccm, cd, ud, metadata⟩, s7)

/-- Translation of `load_temporary` (embedded.rs lines 180-248, `compress`
feature): parse metadata first, resolve each artifact fresh via
`decompress_embedded_data`, then assemble; no static cell is referenced. -/
def load_temporary (e : EmbeddedData) : Except LoadError Dictionary :=
  match Metadata.load e.metadata with
  | .error err => .error err
  | .ok metadata =>
    let char_def_data := decompress_embedded_data e.charDef
    let matrix_data := decompress_embedded_data e.matrix
    let da_data := decompress_embedded_data e.da
    let vals_data := decompress_embedded_data e.vals
    let wordsidx_data := decompress_embedded_data e.wordsIdx
    let words_data := decompress_embedded_data e.words
    let unk_data := decompress_embedded_data e.unk
    let pd := PrefixDictionary.load da_data vals_data wordsidx_data words_data true
    let ccm := ConnectionCostMatrix.load matrix_data
    match CharacterDefinition.load char_def_data with
    | .error err => .error err
    | .ok cd =>
      match UnknownDictionary.load unk_data with
      | .error err => .error err
      | .ok ud => .ok ⟨pd, ccm, cd, ud, metadata⟩

/-- The state-threaded view of `load_temporary`: the source function never
names any of the seven static cells, so its execution carries the ambient
memoized state through unchanged. -/
def load_temporary_st (e : EmbeddedData) (s : CacheState) :
    Except LoadError Dictionary × CacheState :=
  (load_temporary e, s)

/-- `lazyGet` instrumented with the number of times the `decompress_data!`
initializer (the decompression step) actually runs: 0 on an initialized
cell, 1 when the cell is forced for the first time. -/
def lazyGetCount (cell : Option (List Nat)) (bytes : List Nat) :
    List Nat × Option (List Nat) × Nat :=
  match cell with
  | some v => (v, some v, 0)
  | none =>
    let v := decompress_embedded_data bytes
    (v, some v, 1)

/-- `load` instrumented with the total number of decompression-step
executions performed by the call (the sum of the per-cell counts of
`lazyGetCount`). -/
def loadCount (e : EmbeddedData) (s0 : CacheState) :
    Except LoadError Dictionary × CacheState × Nat :=
  match Metadata.load e.metadata with
  | .error err => (.error err, s0, 0)
  | .ok metadata =>
    let r1 := lazyGetCount s0.da e.da
    let s1 := { s0 with da := r1.2.1 }
    let r2 := lazyGetCount s1.vals e.vals
    let s2 := { s1 with vals := r2.2.1 }
    let r3 := lazyGetCount s2.wordsIdx e.wordsIdx
    let s3 := { s2 with wordsIdx := r3.2.1 }
    let r4 := lazyGetCount s3.words e.words
    let s4 := { s3 with words := r4.2.1 }
    let pd := PrefixDictionary.load r1.1 r2.1 r3.1 r4.1 true
    let r5 := lazyGetCount s4.matrix e.matrix
    let s5 := { s4 with matrix := r5.2.1 }
    let ccm := ConnectionCostMatrix.load r5.1
    let r6 := lazyGetCount s5.charDef e.charDef
    let s6 := { s5 with charDef := r6.2.1 }
    let n6 := r1.2.2 + r2.2.2 + r3.2.2 + r4.2.2 + r5.2.2 + r6.2.2
    match CharacterDefinition.load r6.1 with
    | .error err => (.error err, s6, n6)
    | .ok cd =>
      let r7 := lazyGetCount s6.unk e.unk
      let s7 := { s6 with unk := r7.2.1 }
      match UnknownDictionary.load r7.1 with
      | .error err => (.error err, s7, n6 + r7.2.2)
      | .ok ud => (.ok ⟨pd, ccm, cd, ud, metadata⟩, s7, n6 + r7.2.2)

theorem rleDecode_rleEncodeAux (rest : List Nat) :
    ∀ count cur, count ≠ 0 →
      rleDecode (rleEncodeAux count cur rest) =
        some (List.replicate count cur ++ rest) := by
  induction rest with
  | nil =>
    intro count cur hc
    simp [rleEncodeAux, rleDecode, hc]
  | cons b rest ih =>
    intro count cur hc
    by_cases hb : b = cur
    · subst hb
      rw [rleEncodeAux, if_pos rfl, ih (count + 1) b (Nat.succ_ne_zero count)]
      have : List.replicate (count + 1) b ++ rest =
          List.replicate count b ++ b :: rest := by
        rw [List.replicate_succ', List.append_assoc]
        simp
      rw [this]
    · rw [rleEncodeAux, if_neg hb, rleDecode, if_neg hc, ih 1 b one_ne_zero]
      simp

theorem rleDecode_rleEncode (p : List Nat) :
    rleDecode (rleEncode p) = some p := by
  cases p with
  | nil => simp [rleEncode, rleDecode]
  | cons b rest =>
    rw [rleEncode, rleDecode_rleEncodeAux rest 1 b one_ne_zero]
    simp

theorem deserialize_serialize (cd : CompressedData) :
    deserializeCompressed (serializeCompressed cd) = some cd := by
  simp [serializeCompressed, deserializeCompressed]

theorem lazyGetCount_cell (c : Option (List Nat)) (b : List Nat) :
    (lazyGetCount c b).2.1 = some (lazyGetCount c b).1 := by
  cases c <;> rfl

theorem lazyGetCount_some (v : List Nat) (b : List Nat) :
    lazyGetCount (some v) b = (v, some v, 0) := rfl

theorem lazyGet_eq_lazyGetCount (c : Option (List Nat)) (b : List Nat) :
    lazyGet c b = ((lazyGetCount c b).1, (lazyGetCount c b).2.1) := by
  cases c <;> rfl

theorem load_equiv_aux (e : EmbeddedData) :
    (load e CacheState.initial).1 = load_temporary e := by
  cases hm : Metadata.load e.metadata with
  | error err => simp [load, load_temporary, hm]
  | ok m =>
    cases hc : CharacterDefinition.load (decompress_embedded_data e.charDef) with
    | error err => simp [load, load_temporary, hm, hc, CacheState.initial, lazyGet]
    | ok cd =>
      cases hu : UnknownDictionary.load (decompress_embedded_data e.unk) with
      | error err => simp [load, load_temporary, hm, hc, hu, CacheState.initial, lazyGet]
      | ok ud => simp [load, load_temporary, hm, hc, hu, CacheState.initial, lazyGet]

/-- C1: for every fixed set of embedded resource bytes, `load()` (run from
the initial, unpopulated memoized state) and `load_temporary()` return the
same value: identical `Dictionary` component contents on success and the
same error on failure — the two loading paths are observationally
equivalent. -/
theorem load_load_temporary_equiv (e : EmbeddedData) :
    (load e CacheState.initial).1 = load_temporary e :=
  load_equiv_aux e

/-- C2: serializing a payload `P` into a compressed container (the
self-describing `CompressedData` record) and resolving it through the
payload resolver returns exactly `P`, byte for byte; the raw-tagged
container round-trips as well. -/
theorem resolve_roundtrip (p : List Nat) :
    decompress_embedded_data (serializeCompressed (compressPayload p)) = p ∧
      decompress_embedded_data (serializeCompressed ⟨0, p⟩) = p := by
  constructor
  · simp [decompress_embedded_data, alignedCopy, compressPayload,
      deserialize_serialize, decompress, rleDecode_rleEncode]
  · simp [decompress_embedded_data, alignedCopy, deserialize_serialize, decompress]

/-- C3: a byte sequence that does not deserialize as a valid
`CompressedData` container is returned unchanged by the payload resolver. -/
theorem resolve_passthrough (r : List Nat)
    (h : deserializeCompressed r = none) :
    decompress_embedded_data r = r := by
  simp [decompress_embedded_data, alignedCopy, h]

theorem resolve_passthrough_witness :
    deserializeCompressed [1, 2, 3] = none ∧
      decompress_embedded_data [1, 2, 3] = [1, 2, 3] :=
  ⟨by decide, resolve_passthrough [1, 2, 3] (by decide)⟩

/-- C4: a byte sequence that deserializes as a `CompressedData` container
whose payload fails to decompress is returned unchanged by the payload
resolver — decompression failure is never surfaced as an error. -/
theorem resolve_decompress_failure_fallback (b : List Nat)
    (cd : CompressedData) (h1 : deserializeCompressed b = some cd)
    (h2 : decompress cd = none) :
    decompress_embedded_data b = b := by
  simp [decompress_embedded_data, alignedCopy, h1, h2]

theorem resolve_decompress_failure_fallback_witness :
    deserializeCompressed [77, 5, 0] = some ⟨5, []⟩ ∧
      decompress ⟨5, []⟩ = none ∧
      decompress_embedded_data [77, 5, 0] = [77, 5, 0] :=
  ⟨by decide, by decide,
    resolve_decompress_failure_fallback [77, 5, 0] ⟨5, []⟩ (by decide) (by decide)⟩

/-- C5: the payload resolver is a total function: on every input byte
sequence it returns a byte sequence — either the input unchanged (when the
input is not recognized as a container, or its payload fails to decompress)
or the successful decompression of the recognized container's payload. -/
theorem resolve_total (bs : List Nat) :
    decompress_embedded_data bs = bs ∨
      ∃ cd p, deserializeCompressed bs = some cd ∧ decompress cd = some p ∧
        decompress_embedded_data bs = p := by
  cases h : deserializeCompressed bs with
  | none => exact Or.inl (by simp [decompress_embedded_data, alignedCopy, h])
  | some cd =>
    cases h2 : decompress cd with
    | none => exact Or.inl (by simp [decompress_embedded_data, alignedCopy, h, h2])
    | some p =>
      refine Or.inr ⟨cd, p, ?_, ?_, ?_⟩
      · rfl
      · exact h2
      · simp [decompress_embedded_data, alignedCopy, h, h2]

/-- C8: assembly is atomic on failure: when `load_temporary()` — and
`load()` from the initial state, which returns the same value — fails, the
returned error is exactly that of the first failing structural parse, taken
as-is; when it succeeds, the returned `Dictionary` is fully populated, every
component being the successful parse or composition of its resolved
artifact, so no partial aggregate is ever observable. -/
theorem load_atomic_first_error (e : EmbeddedData) :
    (∀ err, load_temporary e = .error err →
      Metadata.load e.metadata = .error err ∨
        ((∃ m, Metadata.load e.metadata = .ok m) ∧
          CharacterDefinition.load (decompress_embedded_data e.charDef) =
            .error err) ∨
        ((∃ m, Metadata.load e.metadata = .ok m) ∧
          (∃ c, CharacterDefinition.load (decompress_embedded_data e.charDef) =
            .ok c) ∧
          UnknownDictionary.load (decompress_embedded_data e.unk) =
            .error err)) ∧
    (∀ d, load_temporary e = .ok d →
      Metadata.load e.metadata = .ok d.metadata ∧
      CharacterDefinition.load (decompress_embedded_data e.charDef) =
        .ok d.character_definition ∧
      UnknownDictionary.load (decompress_embedded_data e.unk) =
        .ok d.unknown_dictionary ∧
      d.prefix_dictionary =
        PrefixDictionary.load (decompress_embedded_data e.da)
          (decompress_embedded_data e.vals) (decompress_embedded_data e.wordsIdx)
          (decompress_embedded_data e.words) true ∧
      d.connection_cost_matrix =
        ConnectionCostMatrix.load (decompress_embedded_data e.matrix)) ∧
    (load e CacheState.initial).1 = load_temporary e := by
  refine ⟨?_, ?_, load_equiv_aux e⟩
  · intro err herr
    cases hm : Metadata.load e.metadata with
    | error e1 =>
      left
      simp only [load_temporary, hm, Except.error.injEq] at herr
      rw [herr]
    | ok m =>
      cases hc : CharacterDefinition.load (decompress_embedded_data e.charDef) with
      | error e2 =>
        simp only [load_temporary, hm, hc, Except.error.injEq] at herr
        exact Or.inr (Or.inl ⟨⟨m, rfl⟩, by rw [herr]⟩)
      | ok c =>
        cases hu : UnknownDictionary.load (decompress_embedded_data e.unk) with
        | error e3 =>
          simp only [load_temporary, hm, hc, hu, Except.error.injEq] at herr
          exact Or.inr (Or.inr ⟨⟨m, rfl⟩, ⟨c, rfl⟩, by rw [herr]⟩)
        | ok u =>
          simp [load_temporary, hm, hc, hu] at herr
  · intro d hd
    cases hm : Metadata.load e.metadata with
    | error e1 => simp [load_temporary, hm] at hd
    | ok m =>
      cases hc : CharacterDefinition.load (decompress_embedded_data e.charDef) with
      | error e2 => simp [load_temporary, hm, hc] at hd
      | ok c =>
        cases hu : UnknownDictionary.load (decompress_embedded_data e.unk) with
        | error e3 => simp [load_temporary, hm, hc, hu] at hd
        | ok u =>
          simp only [load_temporary, hm, hc, hu, Except.ok.injEq] at hd
          subst hd
          exact ⟨rfl, rfl, rfl, rfl, rfl⟩

theorem load_atomic_first_error_witness :
    Metadata.load emptyEmbedded.metadata =
        .error LoadError.MetadataParseError ∨
      ((∃ m, Metadata.load emptyEmbedded.metadata = .ok m) ∧
        CharacterDefinition.load (decompress_embedded_data emptyEmbedded.charDef) =
          .error LoadError.MetadataParseError) ∨
      ((∃ m, Metadata.load emptyEmbedded.metadata = .ok m) ∧
        (∃ c, CharacterDefinition.load
          (decompress_embedded_data emptyEmbedded.charDef) = .ok c) ∧
        UnknownDictionary.load (decompress_embedded_data emptyEmbedded.unk) =
          .error LoadError.MetadataParseError) :=
  (load_atomic_first_error emptyEmbedded).1 LoadError.MetadataParseError rfl

/-- C7 counterexample: with every artifact the zero-length placeholder
(embedding disabled), `load()` fails with `MetadataParseError`, which is
neither `CharacterDefinitionParseError` nor `UnknownDictionaryParseError`;
the claim names the wrong error kinds. -/
theorem load_empty_error_kind_counterexample :
    (load emptyEmbedded CacheState.initial).1 =
        Except.error LoadError.MetadataParseError ∧
      LoadError.MetadataParseError ≠ LoadError.CharacterDefinitionParseError ∧
      LoadError.MetadataParseError ≠ LoadError.UnknownDictionaryParseError :=
  ⟨rfl, by decide, by decide⟩

/-- C7 amended: when every artifact is the zero-length placeholder, `load()`
(from any cache state) and `load_temporary()` deterministically fail with
`MetadataParseError` — the metadata record is parsed first and the empty
metadata artifact is rejected — and never return an empty-but-valid
`Dictionary`. -/
theorem load_empty_fails_metadata (s : CacheState) :
    (load emptyEmbedded s).1 = Except.error LoadError.MetadataParseError ∧
      load_temporary emptyEmbedded = Except.error LoadError.MetadataParseError :=
  ⟨rfl, rfl⟩

/-- C9: `load_temporary()` leaves the memoized state unchanged: in the
state-threaded view the cache state after the call equals the state before
it, the result does not depend on that state, and a subsequent cached
`load()` behaves exactly as if `load_temporary()` had never run. -/
theorem load_temporary_frame (e : EmbeddedData) (s s' : CacheState) :
    (load_temporary_st e s).2 = s ∧
      (load_temporary_st e s).1 = (load_temporary_st e s').1 ∧
      load e (load_temporary_st e s).2 = load e s :=
  ⟨rfl, rfl, rfl⟩

/-- C10: `load_temporary()` is deterministic: a repeated invocation returns
the same result as the first, with no dependence on call count or on prior
calls through either loading path. -/
theorem load_temporary_deterministic (e : EmbeddedData) (s : CacheState) :
    (load_temporary_st e (load_temporary_st e s).2).1 =
        (load_temporary_st e s).1 ∧
      (load_temporary_st e (load e s).2).1 = (load_temporary_st e s).1 :=
  ⟨rfl, rfl⟩

/-- C6: memoization: the instrumented loader `loadCount` agrees with `load`
on result and cache state, and after a first `load()` call has run — from
any starting state — a second `load()` call executes the decompression step
zero times and returns the same result as the first: every artifact is read
from its already-resolved cell. -/
theorem load_single_computation (e : EmbeddedData) (s0 : CacheState) :
    (loadCount e s0).1 = (load e s0).1 ∧
      (loadCount e s0).2.1 = (load e s0).2 ∧
      (loadCount e (loadCount e s0).2.1).2.2 = 0 ∧
      (loadCount e (loadCount e s0).2.1).1 = (loadCount e s0).1 := by
  cases hm : Metadata.load e.metadata with
  | error e1 => simp [load, loadCount, hm]
  | ok m =>
    cases hc : CharacterDefinition.load (lazyGetCount s0.charDef e.charDef).1 with
    | error e2 =>
      simp [load, loadCount, hm, hc, lazyGet_eq_lazyGetCount, lazyGetCount_cell,
        lazyGetCount_some]
    | ok c =>
      cases hu : UnknownDictionary.load (lazyGetCount s0.unk e.unk).1 with
      | error e3 =>
        simp [load, loadCount, hm, hc, hu, lazyGet_eq_lazyGetCount,
          lazyGetCount_cell, lazyGetCount_some]
      | ok u =>
        simp [load, loadCount, hm, hc, hu, lazyGet_eq_lazyGetCount,
          lazyGetCount_cell, lazyGetCount_some]

end Lindera
